import Mathlib

/-!
# SyncGuard — formal model of the failover controller

A shallow embedding of the core of the SyncGuard repository (a two-node
active/passive high-availability controller for CometBFT validators), with
theorems checking the natural-language specification against the code.

The Go sources embedded here:
* `internal/state/manager.go` — `ValidatorState`, `CompareStates`, `SyncFromRemote`
* `internal/state/double_sign.go` — `DoubleSignProtector`
* `internal/state/key.go` — `KeyManager` (`DeleteKey`, `RestoreKey`, `SaveKey`, ...)
* `internal/manager` failover manager — health-check counter and `initiateFailover`
* the peer HTTP server — `handleValidatorKey`, `handleFailoverNotify`
* `internal/crypto` — `Decrypt` slicing behaviour
* `internal/health` — `Checker.IsHealthy`, `Checker.GetLastHeight`

Machine integers (`int64`, `int32`, `int8`) are modelled as `Int`: the embedded
code only compares and copies them, never performs wrapping arithmetic.
External library calls (JSON marshalling, HKDF, AES-GCM) are abstracted as
function parameters; filesystem contents are explicit record fields.
-/

namespace SyncGuard

/-! ## Consensus state (`internal/state/manager.go`) -/

/-- `ValidatorState` mirrors the Go struct: `Height int64`, `Round int32`,
`Step int8`, plus opaque `Signature`/`SignBytes` strings. -/
structure ValidatorState where
  height : Int
  round : Int
  step : Int
  signature : String := ""
  signBytes : String := ""
  deriving DecidableEq, Repr

/-- `Manager.CompareStates(localState, remoteState)`: the returned boolean
(`canTakeOver`).  The Go function also returns an explanatory `error` when the
result is `false`; only the boolean is modelled. -/
def compareStates (localState remoteState : ValidatorState) : Bool :=
  -- Never sign if remote is ahead
  if remoteState.height > localState.height then false
  else if remoteState.height = localState.height then
    -- If at same height, check round
    if remoteState.round > localState.round then false
    else if remoteState.round = localState.round then
      -- If at same round, check step
      if remoteState.step ≥ localState.step then false
      else true
    else true
  else true

/-- The `shouldUpdate` flag computed inside `Manager.SyncFromRemote`:
remote ahead in height; or same height, ahead in round; or same height and
round, ahead or equal in step. -/
def shouldUpdateSync (localState remoteState : ValidatorState) : Bool :=
  if remoteState.height > localState.height then true
  else if remoteState.height = localState.height then
    if remoteState.round > localState.round then true
    else if remoteState.round = localState.round then
      decide (remoteState.step ≥ localState.step)
    else false
  else false

/-- `Manager.SyncFromRemote`, given the parsed contents of the local state file
(`LoadState` succeeded) and the remote state.  `Except.ok s` means
`SaveState(s)` is called (the file now holds `s`); `Except.error` is the
"remote state is behind local" refusal, before which nothing is written. -/
def syncFromRemote (localState remoteState : ValidatorState) :
    Except String ValidatorState :=
  if shouldUpdateSync localState remoteState then Except.ok remoteState
  else Except.error "remote state is behind local"

/-- Contents of the state file after `SyncFromRemote`: the remote state when
the sync succeeded, the unchanged local state when it refused. -/
def fileAfterSync (localState remoteState : ValidatorState) : ValidatorState :=
  match syncFromRemote localState remoteState with
  | Except.ok s => s
  | Except.error _ => localState

/-- Spec ordering: `a > b` in the lexicographic `(height, round, step)` order.
Written from the spec's words ("`true` iff `local > remote` in the `(h, r, s)`
ordering"), to be compared with the code's `compareStates`. -/
def specLexGt (a b : ValidatorState) : Prop :=
  a.height > b.height ∨
    (a.height = b.height ∧
      (a.round > b.round ∨ (a.round = b.round ∧ a.step > b.step)))

/-- Spec ordering for sync: `remote ≥ local` in the `(h, r, s)` lexicographic
order, equality allowed on step.  Written from the spec's words. -/
def specRemoteGe (remote local_ : ValidatorState) : Prop :=
  remote.height > local_.height ∨
    (remote.height = local_.height ∧
      (remote.round > local_.round ∨
        (remote.round = local_.round ∧ remote.step ≥ local_.step)))

instance (a b : ValidatorState) : Decidable (specLexGt a b) := by
  unfold specLexGt; infer_instance

instance (a b : ValidatorState) : Decidable (specRemoteGe a b) := by
  unfold specRemoteGe; infer_instance

end SyncGuard

namespace SyncGuard

/-- C3: `CompareStates(local, remote)` returns `canTakeOver = true` iff
`local > remote` strictly in the lexicographic `(height, round, step)` order;
it returns `false` on equal states, and the six one-coordinate boundary cases
from the state-manager test table evaluate accordingly. -/
theorem compareStates_iff_strictly_ahead :
    (∀ localState remoteState : ValidatorState,
      compareStates localState remoteState = true ↔
        specLexGt localState remoteState)
    ∧ (∀ s : ValidatorState, compareStates s s = false)
    ∧ compareStates ⟨1000, 0, 1, "", ""⟩ ⟨999, 0, 1, "", ""⟩ = true
    ∧ compareStates ⟨999, 0, 1, "", ""⟩ ⟨1000, 0, 1, "", ""⟩ = false
    ∧ compareStates ⟨1000, 2, 1, "", ""⟩ ⟨1000, 1, 1, "", ""⟩ = true
    ∧ compareStates ⟨1000, 1, 1, "", ""⟩ ⟨1000, 2, 1, "", ""⟩ = false
    ∧ compareStates ⟨1000, 1, 3, "", ""⟩ ⟨1000, 1, 2, "", ""⟩ = true
    ∧ compareStates ⟨1000, 1, 2, "", ""⟩ ⟨1000, 1, 3, "", ""⟩ = false := by
  refine ⟨?_, ?_, by decide, by decide, by decide, by decide, by decide, by decide⟩
  · intro l r
    obtain ⟨lh, lr, ls, lsig, lsb⟩ := l
    obtain ⟨rh, rr, rs, rsig, rsb⟩ := r
    simp only [compareStates, specLexGt]
    split_ifs <;> simp_all <;> omega
  · intro s
    obtain ⟨h, r, st, sig, sb⟩ := s
    simp [compareStates]

/-- C2: `SyncFromRemote(remote)` saves the remote state iff
`remote ≥ local` in the lexicographic `(height, round, step)` order with
equality allowed on step; when the remote is strictly behind it returns the
`BehindRemote` error and the state file is unchanged. -/
theorem syncFromRemote_monotone :
    ∀ localState remoteState : ValidatorState,
      ((syncFromRemote localState remoteState).isOk = true ↔
        specRemoteGe remoteState localState)
      ∧ (specRemoteGe remoteState localState →
          fileAfterSync localState remoteState = remoteState)
      ∧ (¬ specRemoteGe remoteState localState →
          (syncFromRemote localState remoteState).isOk = false
          ∧ fileAfterSync localState remoteState = localState) := by
  intro l r
  have hsu : shouldUpdateSync l r = true ↔ specRemoteGe r l := by
    obtain ⟨lh, lr, ls, lsig, lsb⟩ := l
    obtain ⟨rh, rr, rs, rsig, rsb⟩ := r
    simp only [shouldUpdateSync, specRemoteGe]
    split_ifs <;> simp_all
  by_cases hup : shouldUpdateSync l r = true
  · have hok : syncFromRemote l r = Except.ok r := by
      simp [syncFromRemote, hup]
    refine ⟨?_, ?_, ?_⟩
    · simp [hok, Except.isOk, Except.toBool, hsu.mp hup]
    · intro _; simp [fileAfterSync, hok]
    · intro hnot; exact absurd (hsu.mp hup) hnot
  · have herr : syncFromRemote l r = Except.error "remote state is behind local" := by
      simp only [syncFromRemote]
      rw [if_neg hup]
    have hnotge : ¬ specRemoteGe r l := fun hge => hup (hsu.mpr hge)
    refine ⟨?_, ?_, ?_⟩
    · simp [herr, Except.isOk, Except.toBool, hnotge]
    · intro hge; exact absurd hge hnotge
    · intro _; exact ⟨by simp [herr, Except.isOk, Except.toBool], by simp [fileAfterSync, herr]⟩

/-- Witness for `syncFromRemote_monotone`: the spec's anti-rollback scenario,
local `{h=1000, r=1, s=3}` against remote `{h=999, r=0, s=1}` — the sync
refuses and the file is unchanged. -/
theorem syncFromRemote_monotone_witness :
    ¬ specRemoteGe ⟨999, 0, 1, "", ""⟩ ⟨1000, 1, 3, "", ""⟩
    ∧ (syncFromRemote ⟨1000, 1, 3, "", ""⟩ ⟨999, 0, 1, "", ""⟩).isOk = false
    ∧ fileAfterSync ⟨1000, 1, 3, "", ""⟩ ⟨999, 0, 1, "", ""⟩ = ⟨1000, 1, 3, "", ""⟩ := by
  have h : ¬ specRemoteGe ⟨999, 0, 1, "", ""⟩ ⟨1000, 1, 3, "", ""⟩ := by decide
  exact ⟨h, (syncFromRemote_monotone ⟨1000, 1, 3, "", ""⟩ ⟨999, 0, 1, "", ""⟩).2.2 h⟩

end SyncGuard

namespace SyncGuard

/-! ## Double-sign protection (`internal/state/double_sign.go`) -/

/-- `SignatureRecord` without its timestamp: the Go timestamp only appears in
error messages, and pruning selects on heights. -/
structure SignatureRecord where
  height : Int
  round : Int
  step : Int
  deriving DecidableEq, Repr

/-- `DoubleSignProtector`: the Go map keyed by `"h:r:s"` is modelled as the
list of its records (insertion keeps at most one record per triple). -/
structure DoubleSignProtector where
  signedRecords : List SignatureRecord
  lastSignedBlock : Int
  deriving Repr

/-- `maxRecords` as set by `NewDoubleSignProtector`. -/
def maxRecords : Nat := 10000

/-- `NewDoubleSignProtector()`: empty record set, `lastSignedBlock = 0`. -/
def newDSP : DoubleSignProtector := ⟨[], 0⟩

/-- A record carries the map key `"height:round:step"`. -/
def keyMatches (height round step : Int) (rec : SignatureRecord) : Bool :=
  decide (rec.height = height) && decide (rec.round = round) &&
    decide (rec.step = step)

/-- `isValidStepProgression(oldStep, newStep)`. -/
def isValidStepProgression (oldStep newStep : Int) : Bool :=
  decide (newStep > oldStep)

/-- `DoubleSignProtector.CanSign`; only the boolean result is modelled (the
accompanying Go `error` explains a `false`). -/
def canSign (dsp : DoubleSignProtector) (height round step : Int) : Bool :=
  if dsp.signedRecords.any (keyMatches height round step) then false
  else if height < dsp.lastSignedBlock then false
  else if dsp.signedRecords.any (fun rec =>
      decide (rec.height = height) && decide (rec.round = round) &&
        !(decide (rec.step = step)) &&
        !(isValidStepProgression rec.step step)) then false
  else true

/-- `pruneOldRecordsLocked`: once more than `maxRecords / 2` records are held,
drop every record below `lastSignedBlock - 1000` (clamped at 0). -/
def pruneOldRecordsLocked (dsp : DoubleSignProtector) : DoubleSignProtector :=
  if dsp.signedRecords.length ≤ maxRecords / 2 then dsp
  else
    let minHeight := dsp.lastSignedBlock - 1000
    let minHeight := if minHeight < 0 then 0 else minHeight
    { dsp with signedRecords :=
        dsp.signedRecords.filter (fun rec => !(decide (rec.height < minHeight))) }

/-- `DoubleSignProtector.RecordSignature`; the boolean is `true` on success
and `false` for the "signature already recorded" error. -/
def recordSignature (dsp : DoubleSignProtector) (height round step : Int) :
    DoubleSignProtector × Bool :=
  if dsp.signedRecords.any (keyMatches height round step) then (dsp, false)
  else
    let dsp1 : DoubleSignProtector :=
      { dsp with signedRecords := ⟨height, round, step⟩ :: dsp.signedRecords }
    let dsp2 : DoubleSignProtector :=
      if height > dsp1.lastSignedBlock then
        { dsp1 with lastSignedBlock := height }
      else dsp1
    let dsp3 : DoubleSignProtector :=
      if dsp2.signedRecords.length > maxRecords then pruneOldRecordsLocked dsp2
      else dsp2
    (dsp3, true)

/-- Mutating events on one `DoubleSignProtector`: a `RecordSignature` call or
a tick of the background `pruneOldRecords` goroutine. -/
inductive DspOp
  | record (height round step : Int)
  | prune
  deriving DecidableEq, Repr

/-- Apply one mutating event. -/
def dspStep (dsp : DoubleSignProtector) : DspOp → DoubleSignProtector
  | DspOp.record h r s => (recordSignature dsp h r s).1
  | DspOp.prune => pruneOldRecordsLocked dsp

/-- State of a fresh protector after a sequence of mutating events. -/
def dspExec (ops : List DspOp) : DoubleSignProtector :=
  ops.foldl dspStep newDSP

/-- A signed triple stays visible: it is either still in the record set, or
its height has fallen strictly below `lastSignedBlock` (the only way pruning
removes it). -/
def Protected (dsp : DoubleSignProtector) (height round step : Int) : Prop :=
  (⟨height, round, step⟩ : SignatureRecord) ∈ dsp.signedRecords
    ∨ height < dsp.lastSignedBlock

lemma pruneOldRecordsLocked_last (dsp : DoubleSignProtector) :
    (pruneOldRecordsLocked dsp).lastSignedBlock = dsp.lastSignedBlock := by
  unfold pruneOldRecordsLocked
  split_ifs <;> rfl

lemma dspStep_last_mono (dsp : DoubleSignProtector) (op : DspOp) :
    dsp.lastSignedBlock ≤ (dspStep dsp op).lastSignedBlock := by
  cases op with
  | prune => rw [dspStep, pruneOldRecordsLocked_last]
  | record h r s =>
      simp only [dspStep, recordSignature]
      split_ifs <;>
        simp_all [pruneOldRecordsLocked_last] <;> omega

lemma dspStep_last_nonneg (dsp : DoubleSignProtector) (op : DspOp)
    (h : 0 ≤ dsp.lastSignedBlock) : 0 ≤ (dspStep dsp op).lastSignedBlock :=
  le_trans h (dspStep_last_mono dsp op)

lemma prune_protected (dsp : DoubleSignProtector) (height round step : Int)
    (hnn : 0 ≤ dsp.lastSignedBlock) (hp : Protected dsp height round step) :
    Protected (pruneOldRecordsLocked dsp) height round step := by
  unfold pruneOldRecordsLocked
  split_ifs with hlen
  · exact hp
  · cases hp with
    | inr hlt => exact Or.inr hlt
    | inl hmem =>
        by_cases hkeep :
            (!(decide ((⟨height, round, step⟩ : SignatureRecord).height <
              (if dsp.lastSignedBlock - 1000 < 0 then 0
               else dsp.lastSignedBlock - 1000)))) = true
        · exact Or.inl (List.mem_filter.mpr ⟨hmem, hkeep⟩)
        · refine Or.inr (show height < dsp.lastSignedBlock from ?_)
          simp only [Bool.not_eq_true', decide_eq_false_iff_not, not_not] at hkeep
          split_ifs at hkeep with hneg <;> omega

lemma record_mem_after (dsp : DoubleSignProtector) (height round step : Int)
    (hnn : 0 ≤ dsp.lastSignedBlock) :
    Protected (dspStep dsp (DspOp.record height round step)) height round step := by
  simp only [dspStep, recordSignature]
  split_ifs with hdup hlast hlen hlen2
  · -- duplicate: the triple is already in the record set, state unchanged
    left
    rcases List.any_eq_true.mp hdup with ⟨rec, hrec, hkey⟩
    simp only [keyMatches, Bool.and_eq_true, decide_eq_true_eq] at hkey
    obtain ⟨⟨h1, h2⟩, h3⟩ := hkey
    have : rec = ⟨height, round, step⟩ := by
      cases rec; simp_all
    rwa [this] at hrec
  · -- fresh record, lastSignedBlock raised to height, then pruned
    have hlast' : height > dsp.lastSignedBlock := hlast
    exact prune_protected _ _ _ _ (show (0:Int) ≤ height by omega)
      (Or.inl (List.mem_cons_self _ _))
  · exact Or.inl (List.mem_cons_self _ _)
  · -- fresh record, lastSignedBlock unchanged, then pruned
    exact prune_protected _ _ _ _ (show (0:Int) ≤ dsp.lastSignedBlock from hnn)
      (Or.inl (List.mem_cons_self _ _))
  · exact Or.inl (List.mem_cons_self _ _)

lemma dspStep_protected (dsp : DoubleSignProtector) (op : DspOp)
    (height round step : Int) (hnn : 0 ≤ dsp.lastSignedBlock)
    (hp : Protected dsp height round step) :
    Protected (dspStep dsp op) height round step := by
  cases op with
  | prune => exact prune_protected _ _ _ _ hnn hp
  | record h r s =>
      simp only [dspStep, recordSignature]
      split_ifs with hdup hlast hlen hlen2
      · exact hp
      · have hlast' : h > dsp.lastSignedBlock := hlast
        refine prune_protected _ _ _ _ (show (0:Int) ≤ h by omega) ?_
        cases hp with
        | inl hmem => exact Or.inl (List.mem_cons_of_mem _ hmem)
        | inr hlt => exact Or.inr (show height < h by omega)
      · have hlast' : h > dsp.lastSignedBlock := hlast
        cases hp with
        | inl hmem => exact Or.inl (List.mem_cons_of_mem _ hmem)
        | inr hlt => exact Or.inr (show height < h by omega)
      · refine prune_protected _ _ _ _
          (show (0:Int) ≤ dsp.lastSignedBlock from hnn) ?_
        cases hp with
        | inl hmem => exact Or.inl (List.mem_cons_of_mem _ hmem)
        | inr hlt => exact Or.inr hlt
      · cases hp with
        | inl hmem => exact Or.inl (List.mem_cons_of_mem _ hmem)
        | inr hlt => exact Or.inr hlt

lemma foldl_last_nonneg (ops : List DspOp) :
    ∀ dsp : DoubleSignProtector, 0 ≤ dsp.lastSignedBlock →
      0 ≤ (ops.foldl dspStep dsp).lastSignedBlock := by
  induction ops with
  | nil => intro dsp h; exact h
  | cons a rest ih =>
      intro dsp h
      exact ih _ (dspStep_last_nonneg dsp a h)

lemma foldl_protected (ops : List DspOp) (height round step : Int) :
    ∀ dsp : DoubleSignProtector, 0 ≤ dsp.lastSignedBlock →
      Protected dsp height round step →
      Protected (ops.foldl dspStep dsp) height round step := by
  induction ops with
  | nil => intro dsp _ hp; exact hp
  | cons a rest ih =>
      intro dsp hnn hp
      exact ih _ (dspStep_last_nonneg dsp a hnn) (dspStep_protected dsp a _ _ _ hnn hp)

lemma exec_protected (ops : List DspOp) (height round step : Int)
    (hmem : DspOp.record height round step ∈ ops) :
    Protected (dspExec ops) height round step := by
  unfold dspExec
  suffices h : ∀ dsp : DoubleSignProtector, 0 ≤ dsp.lastSignedBlock →
      Protected (ops.foldl dspStep dsp) height round step by
    exact h newDSP (by simp [newDSP])
  induction ops with
  | nil => cases hmem
  | cons a rest ih =>
      intro dsp hnn
      rcases List.mem_cons.mp hmem with heq | hrest
      · subst heq
        exact foldl_protected rest _ _ _ _
          (dspStep_last_nonneg dsp _ hnn) (record_mem_after dsp _ _ _ hnn)
      · exact ih hrest _ (dspStep_last_nonneg dsp a hnn)

lemma canSign_false_of_lt (dsp : DoubleSignProtector) (height round step : Int)
    (hlt : height < dsp.lastSignedBlock) : canSign dsp height round step = false := by
  unfold canSign
  split_ifs <;> simp_all

lemma canSign_false_of_protected (dsp : DoubleSignProtector)
    (height round step step' : Int) (hp : Protected dsp height round step)
    (hle : step' ≤ step) : canSign dsp height round step' = false := by
  cases hp with
  | inr hlt => exact canSign_false_of_lt dsp height round step' hlt
  | inl hmem =>
      unfold canSign
      split_ifs with h1 h2 h3
      · rfl
      · rfl
      · rfl
      · exfalso
        by_cases heq : step' = step
        · subst heq
          exact h1 (List.any_eq_true.mpr ⟨_, hmem, by simp [keyMatches]⟩)
        · apply h3
          refine List.any_eq_true.mpr ⟨⟨height, round, step⟩, hmem, ?_⟩
          simp only [isValidStepProgression, Bool.and_eq_true, decide_eq_true_eq,
            Bool.not_eq_true', decide_eq_false_iff_not]
          refine ⟨⟨⟨?_, ?_⟩, ?_⟩, ?_⟩ <;> first | trivial | omega

end SyncGuard

namespace SyncGuard

/-- C4: for any sequence of `RecordSignature` calls and prune ticks on one
`DoubleSignProtector`, once `(h, r, s)` has been recorded, `CanSign(h, r, s')`
returns `false` for every `s' ≤ s` (only a larger step can be accepted at the
same height and round); `CanSign` returns `false` whenever the height is
strictly below `lastSignedBlock`; and after recording `(1000, 0, 1)` the four
concrete probes behave as specified. -/
theorem canSign_monotone_ledger :
    (∀ (ops : List DspOp) (height round step : Int),
      DspOp.record height round step ∈ ops →
        ∀ step', step' ≤ step → canSign (dspExec ops) height round step' = false)
    ∧ (∀ (ops : List DspOp) (height round step : Int),
        height < (dspExec ops).lastSignedBlock →
          canSign (dspExec ops) height round step = false)
    ∧ canSign (dspExec [DspOp.record 1000 0 1]) 1000 0 1 = false
    ∧ canSign (dspExec [DspOp.record 1000 0 1]) 1000 0 2 = true
    ∧ canSign (dspExec [DspOp.record 1000 0 1]) 999 0 1 = false
    ∧ canSign (dspExec [DspOp.record 1000 0 1]) 1001 0 1 = true := by
  refine ⟨?_, ?_, by decide, by decide, by decide, by decide⟩
  · intro ops h r s hmem s' hle
    exact canSign_false_of_protected _ _ _ _ _ (exec_protected ops h r s hmem) hle
  · intro ops h r s hlt
    exact canSign_false_of_lt _ _ _ _ hlt

/-- Witness for `canSign_monotone_ledger`: after recording `(1000, 0, 1)`,
re-signing step `1` at the same height and round is refused. -/
theorem canSign_monotone_ledger_witness :
    DspOp.record 1000 0 1 ∈ [DspOp.record 1000 0 1]
    ∧ (1 : Int) ≤ 1
    ∧ canSign (dspExec [DspOp.record 1000 0 1]) 1000 0 1 = false := by
  refine ⟨List.mem_singleton.mpr rfl, le_refl 1, ?_⟩
  exact canSign_monotone_ledger.1 [DspOp.record 1000 0 1] 1000 0 1
    (List.mem_singleton.mpr rfl) 1 (le_refl 1)

end SyncGuard

namespace SyncGuard

/-! ## Failover control loop (`internal/manager` failover manager) -/

/-- The supervisor fields the health-check path touches: the node role
(`isActive`) and the consecutive-failure counter. -/
structure FMState where
  isActive : Bool
  failureCount : Nat
  deriving DecidableEq, Repr

/-- `handleHealthCheckSuccess`: reset the failure counter.  (The failback
consideration it may also spawn concerns the passive/primary path, not the
failover threshold.) -/
def handleHealthCheckSuccess (s : FMState) : FMState :=
  { s with failureCount := 0 }

/-- The role/counter effect of `initiateFailover`: no-op unless active,
otherwise go passive and reset the counter.  (Its key, lock and notification
side effects are modelled separately for the handoff claims.) -/
def initiateFailoverRole (s : FMState) : FMState :=
  if !s.isActive then s
  else { isActive := false, failureCount := 0 }

/-- `handleHealthCheckFailure`: increment the counter; when it has reached
`retryAttempts` and the node is active, invoke `initiateFailover`.  The
boolean reports whether `initiateFailover` was invoked. -/
def handleHealthCheckFailure (retryAttempts : Nat) (s : FMState) :
    FMState × Bool :=
  let fc := s.failureCount + 1
  if retryAttempts ≤ fc then
    if s.isActive then (initiateFailoverRole { s with failureCount := fc }, true)
    else ({ s with failureCount := fc }, false)
  else ({ s with failureCount := fc }, false)

/-- One `performHealthCheck` tick, driven by whether the probe reported
healthy.  (A transport error and an unhealthy status report both take the
failure path in the Go code.) -/
def stepProbe (retryAttempts : Nat) (s : FMState) (ok : Bool) :
    FMState × Bool :=
  if ok then (handleHealthCheckSuccess s, false)
  else handleHealthCheckFailure retryAttempts s

/-- Supervisor state entering probe `i` of the trace (probe results listed
oldest first), starting from `s`. -/
def preState (retryAttempts : Nat) (s : FMState) : List Bool → Nat → FMState
  | _, 0 => s
  | [], _ + 1 => s
  | ok :: rest, i + 1 =>
      preState retryAttempts (stepProbe retryAttempts s ok).1 rest i

/-- Whether `initiateFailover` is invoked at probe `i` of the trace. -/
def firedAt (retryAttempts : Nat) (s : FMState) : List Bool → Nat → Bool
  | [], _ => false
  | ok :: _, 0 => (stepProbe retryAttempts s ok).2
  | ok :: rest, i + 1 =>
      firedAt retryAttempts (stepProbe retryAttempts s ok).1 rest i

/-- Supervisor state after consuming the whole probe trace. -/
def finalState (retryAttempts : Nat) (s : FMState) (trace : List Bool) :
    FMState :=
  trace.foldl (fun s ok => (stepProbe retryAttempts s ok).1) s

/-- Boot state of a node configured `active`: counter zero. -/
def initFM : FMState := ⟨true, 0⟩

lemma preState_succ (retryAttempts : Nat) :
    ∀ (l : List Bool) (s : FMState) (i : Nat), i < l.length →
      preState retryAttempts s l (i + 1) =
        (stepProbe retryAttempts (preState retryAttempts s l i)
          (l.getD i true)).1 := by
  intro l
  induction l with
  | nil => intro s i hi; cases hi
  | cons ok rest ih =>
      intro s i hi
      cases i with
      | zero => simp [preState]
      | succ j =>
          have hj : j < rest.length := Nat.lt_of_succ_lt_succ hi
          simp only [preState, List.getD_cons_succ]
          exact ih _ j hj

lemma firedAt_eq_step (retryAttempts : Nat) :
    ∀ (l : List Bool) (s : FMState) (i : Nat), i < l.length →
      firedAt retryAttempts s l i =
        (stepProbe retryAttempts (preState retryAttempts s l i)
          (l.getD i true)).2 := by
  intro l
  induction l with
  | nil => intro s i hi; cases hi
  | cons ok rest ih =>
      intro s i hi
      cases i with
      | zero => simp [firedAt, preState]
      | succ j =>
          have hj : j < rest.length := Nat.lt_of_succ_lt_succ hi
          simp only [firedAt, preState, List.getD_cons_succ]
          exact ih _ j hj

lemma stepProbe_inactive_absorb (retryAttempts : Nat) (s : FMState) (ok : Bool)
    (h : s.isActive = false) :
    (stepProbe retryAttempts s ok).1.isActive = false := by
  simp only [stepProbe, handleHealthCheckSuccess, handleHealthCheckFailure,
    initiateFailoverRole]
  split_ifs <;> simp_all

lemma stepProbe_fired_deactivates (retryAttempts : Nat) (s : FMState) (ok : Bool)
    (h : (stepProbe retryAttempts s ok).2 = true) :
    (stepProbe retryAttempts s ok).1.isActive = false := by
  simp only [stepProbe, handleHealthCheckSuccess, handleHealthCheckFailure,
    initiateFailoverRole] at h ⊢
  split_ifs at h ⊢ <;> simp_all

lemma stepProbe_fired_iff (retryAttempts : Nat) (s : FMState) (ok : Bool) :
    (stepProbe retryAttempts s ok).2 = true ↔
      ok = false ∧ s.isActive = true ∧
        retryAttempts ≤ s.failureCount + 1 := by
  simp only [stepProbe, handleHealthCheckSuccess, handleHealthCheckFailure]
  split_ifs <;> simp_all

lemma stepProbe_not_fired_failure (retryAttempts : Nat) (s : FMState)
    (hfire : (stepProbe retryAttempts s false).2 = false) :
    (stepProbe retryAttempts s false).1 =
      { s with failureCount := s.failureCount + 1 } := by
  simp only [stepProbe, handleHealthCheckFailure] at hfire ⊢
  split_ifs at hfire ⊢ <;> simp_all

end SyncGuard

namespace SyncGuard

lemma stepProbe_fired_state (retryAttempts : Nat) (s : FMState)
    (h : (stepProbe retryAttempts s false).2 = true) :
    (stepProbe retryAttempts s false).1 = ⟨false, 0⟩ := by
  simp only [stepProbe, handleHealthCheckFailure, initiateFailoverRole] at h ⊢
  split_ifs at h ⊢ <;> simp_all

lemma preState_zero (retryAttempts : Nat) (s : FMState) (l : List Bool) :
    preState retryAttempts s l 0 = s := by
  cases l <;> simp [preState]

lemma preState_count_window (retryAttempts : Nat) (trace : List Bool) :
    ∀ i, i ≤ trace.length →
      (preState retryAttempts initFM trace i).failureCount ≤ i
      ∧ ∀ k, k < (preState retryAttempts initFM trace i).failureCount →
          trace.getD (i - 1 - k) true = false := by
  intro i
  induction i with
  | zero =>
      intro _
      rw [preState_zero]
      exact ⟨Nat.le_refl 0, fun k hk => absurd hk (by simp [initFM])⟩
  | succ i ih =>
      intro hi
      have hi' : i < trace.length := Nat.lt_of_succ_le hi
      obtain ⟨hcount, hwin⟩ := ih (Nat.le_of_lt hi')
      rw [preState_succ _ _ _ _ hi']
      cases ht : trace.getD i true with
      | true =>
          simp only [stepProbe, if_pos rfl, handleHealthCheckSuccess]
          exact ⟨Nat.zero_le _, fun k hk => absurd hk (by simp)⟩
      | false =>
          cases hf : (stepProbe retryAttempts
              (preState retryAttempts initFM trace i) false).2 with
          | true =>
              rw [stepProbe_fired_state _ _ hf]
              exact ⟨Nat.zero_le _, fun k hk => absurd hk (by simp)⟩
          | false =>
              rw [stepProbe_not_fired_failure _ _ hf]
              refine ⟨Nat.succ_le_succ hcount, ?_⟩
              intro k hk
              cases k with
              | zero =>
                  have : i + 1 - 1 - 0 = i := by omega
                  rw [this, ht]
              | succ j =>
                  have hj : j < (preState retryAttempts initFM trace i).failureCount := by
                    simpa using Nat.lt_of_succ_lt_succ hk
                  have hji : j + 1 ≤ i := by
                    have := Nat.lt_of_lt_of_le hj hcount
                    omega
                  have : i + 1 - 1 - (j + 1) = i - 1 - j := by omega
                  rw [this]
                  exact hwin j hj

lemma preState_count_ge (retryAttempts : Nat) (trace : List Bool) :
    ∀ i, i ≤ trace.length →
      (preState retryAttempts initFM trace i).isActive = true →
      ∀ k, k ≤ i →
        (∀ j, j < i → i ≤ j + k → trace.getD j true = false) →
        k ≤ (preState retryAttempts initFM trace i).failureCount := by
  intro i
  induction i with
  | zero =>
      intro _ _ k hk _
      omega
  | succ i ih =>
      intro hi hact k hk hwin
      have hi' : i < trace.length := Nat.lt_of_succ_le hi
      rw [preState_succ _ _ _ _ hi'] at hact ⊢
      have hacti : (preState retryAttempts initFM trace i).isActive = true := by
        by_contra hc
        have hfalse : (preState retryAttempts initFM trace i).isActive = false := by
          cases h : (preState retryAttempts initFM trace i).isActive
          · rfl
          · exact absurd h hc
        rw [stepProbe_inactive_absorb _ _ _ hfalse] at hact
        cases hact
      cases k with
      | zero => exact Nat.zero_le _
      | succ m =>
          have hti : trace.getD i true = false :=
            hwin i (Nat.lt_succ_self i) (by omega)
          rw [hti] at hact ⊢
          have hnf : (stepProbe retryAttempts
              (preState retryAttempts initFM trace i) false).2 = false := by
            cases hf : (stepProbe retryAttempts
                (preState retryAttempts initFM trace i) false).2
            · rfl
            · rw [stepProbe_fired_deactivates _ _ _ hf] at hact; cases hact
          rw [stepProbe_not_fired_failure _ _ hnf]
          have hmi : m ≤ (preState retryAttempts initFM trace i).failureCount := by
            refine ih (Nat.le_of_lt hi') hacti m (by omega) ?_
            intro j hj hjm
            exact hwin j (Nat.lt_succ_of_lt hj) (by omega)
          simpa using Nat.succ_le_succ hmi

lemma finalState_reset (retryAttempts : Nat) :
    ∀ (k : Nat) (s : FMState), s.isActive = true →
      s.failureCount + k < retryAttempts →
      finalState retryAttempts s (List.replicate k false ++ [true]) =
        ⟨true, 0⟩ := by
  intro k
  induction k with
  | zero =>
      intro s hact _
      simp only [List.replicate, List.nil_append, finalState, List.foldl_cons,
        List.foldl_nil, stepProbe, if_pos rfl, handleHealthCheckSuccess]
      cases s
      simp_all
  | succ k ih =>
      intro s hact hlt
      simp only [List.replicate_succ, List.cons_append, finalState,
        List.foldl_cons]
      have hnf : (stepProbe retryAttempts s false).2 = false := by
        cases hf : (stepProbe retryAttempts s false).2
        · rfl
        · have := (stepProbe_fired_iff retryAttempts s false).mp hf
          omega
      rw [stepProbe_not_fired_failure _ _ hnf]
      exact ih { s with failureCount := s.failureCount + 1 } hact (by simp; omega)

end SyncGuard

namespace SyncGuard

/-- C5: in the control loop started from an Active node, `initiateFailover`
is invoked at probe `i` iff the node is still Active entering that probe and
the `retryAttempts` consecutive probes ending at `i` all failed (each failure
increments the counter, each success resets it); and `retryAttempts - 1`
consecutive failures followed by one success cause no failover, with the
counter reset to zero. -/
theorem failover_fires_iff_consecutive_failures :
    ∀ retryAttempts : Nat, 1 ≤ retryAttempts →
      (∀ (trace : List Bool) (i : Nat), i < trace.length →
        (firedAt retryAttempts initFM trace i = true ↔
          ((preState retryAttempts initFM trace i).isActive = true
            ∧ retryAttempts ≤ i + 1
            ∧ ∀ j, j ≤ i → i < j + retryAttempts →
                trace.getD j true = false)))
      ∧ (∀ i, i < retryAttempts →
          firedAt retryAttempts initFM
            (List.replicate (retryAttempts - 1) false ++ [true]) i = false)
      ∧ finalState retryAttempts initFM
          (List.replicate (retryAttempts - 1) false ++ [true]) = ⟨true, 0⟩ := by
  intro ra hra
  have hmain : ∀ (trace : List Bool) (i : Nat), i < trace.length →
      (firedAt ra initFM trace i = true ↔
        ((preState ra initFM trace i).isActive = true
          ∧ ra ≤ i + 1
          ∧ ∀ j, j ≤ i → i < j + ra → trace.getD j true = false)) := by
    intro trace i hi
    rw [firedAt_eq_step _ _ _ _ hi, stepProbe_fired_iff]
    obtain ⟨hcount, hwin⟩ := preState_count_window ra trace i (Nat.le_of_lt hi)
    constructor
    · rintro ⟨ht, hact, hth⟩
      refine ⟨hact, by omega, ?_⟩
      intro j hj hjra
      by_cases hje : j = i
      · subst hje; exact ht
      · have hj' : j < i := lt_of_le_of_ne hj hje
        have hk : i - 1 - (i - 1 - j) = j := by omega
        have hlt : i - 1 - j < (preState ra initFM trace i).failureCount := by
          omega
        have := hwin (i - 1 - j) hlt
        rwa [hk] at this
    · rintro ⟨hact, hra_le, hwindow⟩
      have ht : trace.getD i true = false := hwindow i (le_refl i) (by omega)
      refine ⟨ht, hact, ?_⟩
      have hge : ra - 1 ≤ (preState ra initFM trace i).failureCount := by
        refine preState_count_ge ra trace i (Nat.le_of_lt hi) hact (ra - 1)
          (by omega) ?_
        intro j hj hjra
        exact hwindow j (Nat.le_of_lt hj) (by omega)
      omega
  refine ⟨hmain, ?_, ?_⟩
  · intro i hilt
    by_contra hc
    have hfi : firedAt ra initFM
        (List.replicate (ra - 1) false ++ [true]) i = true := by
      cases h : firedAt ra initFM (List.replicate (ra - 1) false ++ [true]) i
      · exact absurd h hc
      · rfl
    have hlen : (List.replicate (ra - 1) false ++ [true]).length = ra := by
      simp; omega
    have hi : i < (List.replicate (ra - 1) false ++ [true]).length := by omega
    obtain ⟨-, hle, hwindow⟩ := (hmain _ i hi).mp hfi
    have hieq : i = ra - 1 := by omega
    have hlast := hwindow i (le_refl i) (by omega)
    rw [hieq] at hlast
    rw [List.getD_append_right] at hlast
    · simp [List.length_replicate] at hlast
    · simp [List.length_replicate]
  · exact finalState_reset ra (ra - 1) initFM rfl (by simp [initFM]; omega)

/-- Witness for `failover_fires_iff_consecutive_failures`: with
`retryAttempts = 3`, three consecutive failed probes from the Active boot
state make `initiateFailover` fire at the third probe, while the node was
still Active entering it. -/
theorem failover_fires_iff_consecutive_failures_witness :
    (1 : Nat) ≤ 3 ∧ (2 : Nat) < [false, false, false].length
    ∧ (preState 3 initFM [false, false, false] 2).isActive = true
    ∧ (3 : Nat) ≤ 2 + 1
    ∧ [false, false, false].getD 2 true = false := by
  have h := ((failover_fires_iff_consecutive_failures 3 (by norm_num)).1
      [false, false, false] 2 (by norm_num)).mp (by decide)
  exact ⟨by norm_num, by norm_num, h.1, h.2.1, h.2.2 2 (by norm_num) (by norm_num)⟩

end SyncGuard

namespace SyncGuard

/-! ## Validator key store (`internal/state/key.go`)

File contents are raw strings; `json.Unmarshal` / `json.MarshalIndent` on
`ValidatorKey` are abstracted as `parseKey` / `marshalKey` parameters.
Filesystem writes themselves do not fail in this model; a key-store step
fails exactly when a required file is missing or does not parse. -/

/-- `ValidatorKey`: address plus opaque public/private key JSON blobs. -/
structure ValidatorKey where
  address : String
  pubKey : String
  privKey : String
  deriving DecidableEq, Repr

/-- The fixed mock key written by `DeleteKey`; its address matches no real
validator, which prevents signing. -/
def mockKey : ValidatorKey where
  address := "48DC218393FCEEF56A37D963B804FAB92C62CA9D"
  pubKey := "\x7b\"type\":\"tendermint/PubKeySecp256k1\",\"value\":\"AvLo+lkg0UWozoI+pJzv1a7upt+HaMxZCdWgRxvZ8Cb1\"\x7d"
  privKey := "\x7b\"type\":\"tendermint/PrivKeySecp256k1\",\"value\":\"ansj9FenmlrmNrxi0BXgZ+YfJBSGZqy20i7/K7CdOiQ=\"\x7d"

/-- The key-related files: contents at the key path, its `.real` and
`.disabled` sidecars, and the backup copy; `none` means absent. -/
structure KeyFS where
  key : Option String
  real : Option String
  disabled : Option String
  backup : Option String
  deriving DecidableEq, Repr

/-- `KeyManager.SaveKey`: marshal and atomically replace the key file. -/
def saveKey (marshalKey : ValidatorKey → String) (fs : KeyFS)
    (k : ValidatorKey) : KeyFS :=
  { fs with key := some (marshalKey k) }

/-- `KeyManager.BackupKey`: skip when no backup dir is configured; otherwise
`LoadKey` (read + parse) and write the re-marshalled key to the backup
file. -/
def backupKey (parseKey : String → Option ValidatorKey)
    (marshalKey : ValidatorKey → String) (backupPath : String)
    (fs : KeyFS) : KeyFS × Bool :=
  if backupPath = "" then (fs, true)
  else
    match fs.key with
    | none => (fs, false)
    | some raw =>
        match parseKey raw with
        | none => (fs, false)
        | some k => ({ fs with backup := some (marshalKey k) }, true)

/-- `KeyManager.DeleteKey`: back up, rename the real key to `<path>.real`,
then write the fixed mock key at the key path.  (The Go rollback for a
failing mock-key marshal/write is unreachable here, where writes do not
fail.)  `true` on success. -/
def deleteKey (parseKey : String → Option ValidatorKey)
    (marshalKey : ValidatorKey → String) (backupPath : String)
    (fs : KeyFS) : KeyFS × Bool :=
  match backupKey parseKey marshalKey backupPath fs with
  | (fs0, false) => (fs0, false)
  | (fs1, true) =>
      match fs1.key with
      | none => (fs1, false)
      | some raw =>
          ({ fs1 with key := some (marshalKey mockKey), real := some raw },
            true)

/-- `KeyManager.RestoreKey`: prefer the `.real` sidecar (mock-key swap was
used): remove the mock key and rename `.real` back; otherwise fall back to
the legacy `.disabled` sidecar.  `true` on success. -/
def restoreKey (fs : KeyFS) : KeyFS × Bool :=
  match fs.real with
  | some raw => ({ fs with key := some raw, real := none }, true)
  | none =>
      match fs.disabled with
      | none => (fs, false)
      | some raw => ({ fs with key := some raw, disabled := none }, true)

/-- C8: for a present key file (and no stale sidecars), `DeleteKey()` then
`RestoreKey()` returns the key file to bytewise equality with its original
contents; whenever `DeleteKey` succeeds, the intermediate state holds the
serialized fixed mock key at the key path with the original bytes preserved
at `<path>.real`, and `RestoreKey` then succeeds; the mock key's address is
`48DC218393FCEEF56A37D963B804FAB92C62CA9D`. -/
theorem deleteKey_restoreKey_roundtrip :
    (∀ (parseKey : String → Option ValidatorKey)
      (marshalKey : ValidatorKey → String)
      (backupPath orig : String) (fs : KeyFS),
      fs.key = some orig → fs.real = none → fs.disabled = none →
      (restoreKey (deleteKey parseKey marshalKey backupPath fs).1).1.key
          = some orig
      ∧ ((deleteKey parseKey marshalKey backupPath fs).2 = true →
          (deleteKey parseKey marshalKey backupPath fs).1.key
              = some (marshalKey mockKey)
          ∧ (deleteKey parseKey marshalKey backupPath fs).1.real = some orig
          ∧ (restoreKey (deleteKey parseKey marshalKey backupPath fs).1).2
              = true))
    ∧ mockKey.address = "48DC218393FCEEF56A37D963B804FAB92C62CA9D" := by
  refine ⟨?_, rfl⟩
  intro parseKey marshalKey backupPath orig fs hkey hreal hdis
  obtain ⟨k, r, d, b⟩ := fs
  simp only at hkey hreal hdis
  subst hkey hreal hdis
  by_cases hbp : backupPath = ""
  · simp [deleteKey, backupKey, restoreKey, hbp]
  · cases hparse : parseKey orig with
    | none => simp [deleteKey, backupKey, restoreKey, hbp, hparse]
    | some pk => simp [deleteKey, backupKey, restoreKey, hbp, hparse]

/-- Witness for `deleteKey_restoreKey_roundtrip`: a concrete filesystem with
key contents `"KEYBYTES"`, no backup dir configured — deactivation leaves the
marshalled mock key at the key path and the original at `.real`, and
restoration brings `"KEYBYTES"` back. -/
theorem deleteKey_restoreKey_roundtrip_witness :
    (⟨some "KEYBYTES", none, none, none⟩ : KeyFS).key = some "KEYBYTES"
    ∧ (restoreKey (deleteKey (fun _ => none) (fun k => k.address) ""
        ⟨some "KEYBYTES", none, none, none⟩).1).1.key = some "KEYBYTES"
    ∧ ((deleteKey (fun _ => none) (fun k => k.address) ""
        ⟨some "KEYBYTES", none, none, none⟩).2 = true →
        (deleteKey (fun _ => none) (fun k => k.address) ""
          ⟨some "KEYBYTES", none, none, none⟩).1.key
            = some mockKey.address) := by
  have h := deleteKey_restoreKey_roundtrip.1 (fun _ => none)
    (fun k => k.address) "" "KEYBYTES" ⟨some "KEYBYTES", none, none, none⟩
    rfl rfl rfl
  exact ⟨rfl, h.1, fun hs => (h.2 hs).1⟩

end SyncGuard

namespace SyncGuard

/-! ## Peer HTTP server (`internal/server`, `server.go`) -/

/-- An inbound peer request: the HTTP method, the authentication headers the
security contract prescribes, and the raw body. -/
structure PeerRequest where
  method : String
  xSignature : String
  xTimestamp : String
  body : String
  deriving DecidableEq, Repr

/-- `Server.handleValidatorKey`: GET answers the local key bytes (404 when
absent); POST runs `KeyProvider.KeyFromBytes` on the body — parse, then
`SaveKey` — answering 500 on a parse failure and 200 on success; other
methods get 405.  Returns the HTTP status and the resulting key filesystem.
The handler reads no header of the request. -/
def handleValidatorKey (parseKey : String → Option ValidatorKey)
    (marshalKey : ValidatorKey → String) (fs : KeyFS)
    (req : PeerRequest) : Nat × KeyFS :=
  if req.method = "GET" then
    match fs.key with
    | none => (404, fs)
    | some _ => (200, fs)
  else if req.method = "POST" then
    match parseKey req.body with
    | none => (500, fs)
    | some k => (200, saveKey marshalKey fs k)
  else (405, fs)

/-- C1 (divergence witnessed): `handleValidatorKey` consults neither
`X-Signature` nor `X-Timestamp`.  Every POST whose body parses as a key —
whatever the signature and timestamp headers carry — is answered 200 with the
local key file overwritten, and no request at all is answered 403. -/
theorem validator_key_post_unauthenticated :
    ∀ (parseKey : String → Option ValidatorKey)
      (marshalKey : ValidatorKey → String) (fs : KeyFS)
      (sig ts body : String) (k : ValidatorKey),
      parseKey body = some k →
      handleValidatorKey parseKey marshalKey fs ⟨"POST", sig, ts, body⟩ =
        (200, { fs with key := some (marshalKey k) })
      ∧ ∀ req : PeerRequest,
          (handleValidatorKey parseKey marshalKey fs req).1 ≠ 403 := by
  intro parseKey marshalKey fs sig ts body k hparse
  constructor
  · simp [handleValidatorKey, hparse, saveKey]
  · intro req
    simp only [handleValidatorKey]
    split_ifs
    · cases fs.key <;> simp
    · cases parseKey req.body <;> simp
    · simp

/-- Witness for `validator_key_post_unauthenticated`: a POST carrying a
parseable key body and a signature produced with the wrong secret is answered
200 and the key file is overwritten — where the specified behaviour is a 403
with the key file untouched. -/
theorem validator_key_post_unauthenticated_witness :
    (fun b => if b = "KEYJSON" then some mockKey else none) "KEYJSON"
        = some mockKey
    ∧ handleValidatorKey
        (fun b => if b = "KEYJSON" then some mockKey else none)
        (fun k => k.address) ⟨some "OLDKEY", none, none, none⟩
        ⟨"POST", "hmac-with-wrong-secret", "1731234567", "KEYJSON"⟩ =
        (200, ⟨some mockKey.address, none, none, none⟩) := by
  have h := validator_key_post_unauthenticated
    (fun b => if b = "KEYJSON" then some mockKey else none)
    (fun k => k.address) ⟨some "OLDKEY", none, none, none⟩
    "hmac-with-wrong-secret" "1731234567" "KEYJSON" mockKey (by simp)
  exact ⟨by simp, h.1⟩

/-- Inputs of `Server.handleFailoverNotify`: current role, the health
checker's verdict, and the failure switches of the takeover steps. -/
structure NotifyEnv where
  isActive : Bool
  healthy : Bool
  lockAcquireFails : Bool
  restarterPresent : Bool
  restartFails : Bool
  deriving DecidableEq, Repr

/-- Outcome of `Server.handleFailoverNotify`: HTTP status, whether the state
lock ended up acquired, and the node's `isActive` afterwards. -/
structure NotifyResult where
  status : Nat
  lockAcquired : Bool
  isActiveAfter : Bool
  deriving DecidableEq, Repr

/-- `Server.handleFailoverNotify`: when the node is not active and healthy,
acquire the state lock (500 on failure), restart the validator if a restarter
is wired (500 on failure, the acquired lock is kept), then set Active and
answer 200.  In every other situation the handler does nothing and answers
200. -/
def handleFailoverNotify (env : NotifyEnv) : NotifyResult :=
  if !env.isActive && env.healthy then
    if env.lockAcquireFails then ⟨500, false, env.isActive⟩
    else if env.restarterPresent && env.restartFails then
      ⟨500, true, env.isActive⟩
    else ⟨200, true, true⟩
  else ⟨200, false, env.isActive⟩

/-- C7 counterexample: a Passive node whose local health check reports
unhealthy answers `failover_notify` with 200 OK — not a non-OK status — while
acquiring nothing and staying Passive. -/
theorem failover_notify_unhealthy_status_is_ok :
    handleFailoverNotify ⟨false, false, false, false, false⟩ =
      ⟨200, false, false⟩ := by decide

/-- C7 (amended): a Passive, unhealthy node answers `failover_notify` with
200 OK as a bare acknowledgment — it acquires nothing and remains Passive;
the takeover path (acquire the lock, restart, set Active) runs only when the
node is currently Passive and healthy. -/
theorem failover_notify_passive_unhealthy_noop :
    ∀ env : NotifyEnv,
      (env.isActive = false → env.healthy = false →
        handleFailoverNotify env = ⟨200, false, false⟩)
      ∧ (env.isActive = false →
          (handleFailoverNotify env).isActiveAfter = true →
            env.healthy = true)
      ∧ ((handleFailoverNotify env).lockAcquired = true →
          env.isActive = false ∧ env.healthy = true) := by
  intro env
  obtain ⟨a, h, l, rp, rf⟩ := env
  cases a <;> cases h <;> cases l <;> cases rp <;> cases rf <;> decide

/-- Witness for `failover_notify_passive_unhealthy_noop`: the Passive and
unhealthy node acknowledges with 200, acquires nothing and stays Passive. -/
theorem failover_notify_passive_unhealthy_noop_witness :
    handleFailoverNotify ⟨false, false, false, false, false⟩ =
      ⟨200, false, false⟩
    ∧ (handleFailoverNotify ⟨false, true, false, false, false⟩).lockAcquired
        = true := by
  refine ⟨(failover_notify_passive_unhealthy_noop
    ⟨false, false, false, false, false⟩).1 rfl rfl, by decide⟩

end SyncGuard

namespace SyncGuard

/-! ## Failover handoff (`initiateFailover` in the failover manager) -/

/-- The observable steps of `initiateFailover`, in the order the Go body
performs them. -/
inductive HandoffEv
  | transferKey
  | deactivateKey
  | restartNode
  | releaseLock
  | notifyPeer
  | setPassive
  deriving DecidableEq, Repr

/-- The node structures `initiateFailover` touches: the key files, the
state-file lock, the role and the failure counter. -/
structure FONode where
  fs : KeyFS
  lockHeld : Bool
  isActive : Bool
  failureCount : Nat
  deriving DecidableEq, Repr

/-- `initiateFailover`, under the role mutex: a no-op when not active;
otherwise transfer the key to the peer (best effort), `DeleteKey` (errors
logged, never rolled back), restart the validator when a node manager is
configured (errors logged), release the state lock (errors logged, the lock
stays held on failure), notify the peer, and only then set the role to
Passive and reset the counter.  Returns the new node state and the emitted
step trace. -/
def initiateFailover (parseKey : String → Option ValidatorKey)
    (marshalKey : ValidatorKey → String) (backupPath : String)
    (nodeManagerPresent _transferFails _restartFails releaseFails : Bool)
    (n : FONode) : FONode × List HandoffEv :=
  if !n.isActive then (n, [])
  else
    let fs1 := (deleteKey parseKey marshalKey backupPath n.fs).1
    let lock1 := if releaseFails then n.lockHeld else false
    ({ fs := fs1, lockHeld := lock1, isActive := false, failureCount := 0 },
      [HandoffEv.transferKey, HandoffEv.deactivateKey]
        ++ (if nodeManagerPresent then [HandoffEv.restartNode] else [])
        ++ [HandoffEv.releaseLock, HandoffEv.notifyPeer, HandoffEv.setPassive])

/-- C6: whenever `initiateFailover` flips an Active node to Passive, it has
already run — in this order, before the role change — key deactivation,
validator restart and lock release; failures of the key transfer, the
restart or the release (any value of the failure switches) are never rolled
back, and with a present parseable key file the node ends holding the
serialized mock key at the key path, unable to sign. -/
theorem initiateFailover_order_and_finality :
    ∀ (parseKey : String → Option ValidatorKey)
      (marshalKey : ValidatorKey → String) (backupPath : String)
      (transferFails restartFails releaseFails : Bool)
      (n : FONode) (orig : String),
      n.isActive = true →
      n.fs.key = some orig →
      (backupPath = "" ∨ ∃ k, parseKey orig = some k) →
      (initiateFailover parseKey marshalKey backupPath true
          transferFails restartFails releaseFails n).2 =
        [HandoffEv.transferKey, HandoffEv.deactivateKey, HandoffEv.restartNode,
          HandoffEv.releaseLock, HandoffEv.notifyPeer, HandoffEv.setPassive]
      ∧ (initiateFailover parseKey marshalKey backupPath true
          transferFails restartFails releaseFails n).1.isActive = false
      ∧ (initiateFailover parseKey marshalKey backupPath true
          transferFails restartFails releaseFails n).1.failureCount = 0
      ∧ (initiateFailover parseKey marshalKey backupPath true
          transferFails restartFails releaseFails n).1.fs.key
            = some (marshalKey mockKey)
      ∧ (initiateFailover parseKey marshalKey backupPath true
          transferFails restartFails releaseFails n).1.fs.real = some orig := by
  intro parseKey marshalKey backupPath transferFails restartFails releaseFails
    n orig hact hkey hbk
  obtain ⟨⟨k, r, d, b⟩, lk, ia, fc⟩ := n
  simp only at hact hkey
  subst hact hkey
  rcases hbk with hbp | ⟨pk, hparse⟩
  · subst hbp
    simp [initiateFailover, deleteKey, backupKey]
  · by_cases hbp : backupPath = ""
    · subst hbp
      simp [initiateFailover, deleteKey, backupKey]
    · simp [initiateFailover, deleteKey, backupKey, hbp, hparse]

/-- Witness for `initiateFailover_order_and_finality`: a concrete Active node
with key contents `"REALKEY"` and a failing restart and release — the step
order stands, the role flips, and the mock key is in place with the original
at `.real`. -/
theorem initiateFailover_order_and_finality_witness :
    (⟨⟨some "REALKEY", none, none, none⟩, true, true, 2⟩ : FONode).isActive
        = true
    ∧ (initiateFailover (fun _ => none) (fun k => k.address) "" true
        false true true
        ⟨⟨some "REALKEY", none, none, none⟩, true, true, 2⟩).1.fs.key
          = some mockKey.address
    ∧ (initiateFailover (fun _ => none) (fun k => k.address) "" true
        false true true
        ⟨⟨some "REALKEY", none, none, none⟩, true, true, 2⟩).1.isActive
          = false := by
  have h := initiateFailover_order_and_finality (fun _ => none)
    (fun k => k.address) "" false true true
    ⟨⟨some "REALKEY", none, none, none⟩, true, true, 2⟩ "REALKEY"
    rfl rfl (Or.inl rfl)
  exact ⟨rfl, h.2.2.2.1, h.2.1⟩

end SyncGuard

namespace SyncGuard

/-! ## AEAD transport (`internal/crypto`, `crypto.go`) -/

/-- `SALT_SIZE` constant. -/
def SALT_SIZE : Nat := 16

/-- `NONCE_SIZE` constant. -/
def NONCE_SIZE : Nat := 12

/-- Go slice expression `s[low:high]`: defined only when
`low ≤ high ≤ len(s)`; out of range is a runtime panic. -/
def goSlice (data : List Nat) (low high : Nat) : Option (List Nat) :=
  if low ≤ high ∧ high ≤ data.length then
    some ((data.drop low).take (high - low))
  else none

/-- Go slice expression `s[low:]`. -/
def goSliceFrom (data : List Nat) (low : Nat) : Option (List Nat) :=
  if low ≤ data.length then some (data.drop low) else none

/-- Outcome of running a Go function that can panic. -/
inductive Outcome (α : Type) where
  | panics
  | fails (msg : String)
  | ok (v : α)
  deriving DecidableEq, Repr

/-- `crypto.Decrypt`: slice off the 16-byte salt and 12-byte nonce, derive
the key through HKDF-SHA-256 and open with AES-GCM — both abstracted:
`hkdfKey` derives the key, `aesgcmOpen` returns the plaintext or `none` on a
tag mismatch.  The three slice expressions run before any length validation
exists, so they panic on input shorter than `SALT_SIZE + NONCE_SIZE`. -/
def decrypt (hkdfKey : String → List Nat → List Nat)
    (aesgcmOpen : List Nat → List Nat → List Nat → Option (List Nat))
    (data : List Nat) (secret : String) : Outcome (List Nat) :=
  match goSlice data 0 SALT_SIZE,
      goSlice data SALT_SIZE (SALT_SIZE + NONCE_SIZE),
      goSliceFrom data (SALT_SIZE + NONCE_SIZE) with
  | some salt, some nonce, some ciphertext =>
      match aesgcmOpen (hkdfKey secret salt) nonce ciphertext with
      | some plaintext => Outcome.ok plaintext
      | none => Outcome.fails "cipher: message authentication failed"
  | _, _, _ => Outcome.panics

/-- `KeyManager.DecryptKeyFromBytes`: `crypto.Decrypt`, then `KeyFromBytes`
(parse the plaintext as a key, which `SaveKey` would then write).  A panic in
`Decrypt` propagates. -/
def decryptKeyFromBytes (hkdfKey : String → List Nat → List Nat)
    (aesgcmOpen : List Nat → List Nat → List Nat → Option (List Nat))
    (parseKeyBytes : List Nat → Option ValidatorKey)
    (data : List Nat) (secret : String) : Outcome ValidatorKey :=
  match decrypt hkdfKey aesgcmOpen data secret with
  | Outcome.panics => Outcome.panics
  | Outcome.fails msg => Outcome.fails ("failed to decrypt key: " ++ msg)
  | Outcome.ok keyData =>
      match parseKeyBytes keyData with
      | none => Outcome.fails "invalid key data"
      | some k => Outcome.ok k

/-- C9: `crypto.Decrypt` performs no length validation before slicing — any
input shorter than 28 bytes panics instead of returning an error (and with 28
or more bytes the slicing never panics); `DecryptKeyFromBytes` on a short
blob therefore panics rather than failing gracefully. -/
theorem decrypt_short_input_panics :
    ∀ (hkdfKey : String → List Nat → List Nat)
      (aesgcmOpen : List Nat → List Nat → List Nat → Option (List Nat))
      (data : List Nat) (secret : String),
      (data.length < 28 →
        decrypt hkdfKey aesgcmOpen data secret = Outcome.panics
        ∧ ∀ parseKeyBytes : List Nat → Option ValidatorKey,
            decryptKeyFromBytes hkdfKey aesgcmOpen parseKeyBytes data secret
              = Outcome.panics)
      ∧ (28 ≤ data.length →
          decrypt hkdfKey aesgcmOpen data secret ≠ Outcome.panics) := by
  intro hkdfKey aesgcmOpen data secret
  constructor
  · intro hshort
    have hnon : goSliceFrom data (SALT_SIZE + NONCE_SIZE) = none := by
      simp only [goSliceFrom, SALT_SIZE, NONCE_SIZE]
      rw [if_neg]
      omega
    have hdec : decrypt hkdfKey aesgcmOpen data secret = Outcome.panics := by
      simp only [decrypt, hnon]
      rcases goSlice data 0 SALT_SIZE with - | s <;>
        rcases goSlice data SALT_SIZE (SALT_SIZE + NONCE_SIZE) with - | t <;>
        rfl
    refine ⟨hdec, ?_⟩
    intro parseKeyBytes
    simp [decryptKeyFromBytes, hdec]
  · intro hlong
    have h1 : goSlice data 0 SALT_SIZE =
        some ((data.drop 0).take (SALT_SIZE - 0)) := by
      simp only [goSlice, SALT_SIZE]
      rw [if_pos]
      omega
    have h2 : goSlice data SALT_SIZE (SALT_SIZE + NONCE_SIZE) =
        some ((data.drop SALT_SIZE).take (SALT_SIZE + NONCE_SIZE - SALT_SIZE)) := by
      simp only [goSlice, SALT_SIZE, NONCE_SIZE]
      rw [if_pos]
      omega
    have h3 : goSliceFrom data (SALT_SIZE + NONCE_SIZE) =
        some (data.drop (SALT_SIZE + NONCE_SIZE)) := by
      simp only [goSliceFrom, SALT_SIZE, NONCE_SIZE]
      rw [if_pos]
      omega
    simp only [decrypt, h1, h2, h3]
    rcases aesgcmOpen (hkdfKey secret ((data.drop 0).take (SALT_SIZE - 0)))
        ((data.drop SALT_SIZE).take (SALT_SIZE + NONCE_SIZE - SALT_SIZE))
        (data.drop (SALT_SIZE + NONCE_SIZE)) with - | pt <;> simp

/-- Witness for `decrypt_short_input_panics`: a one-byte blob makes both
`Decrypt` and `DecryptKeyFromBytes` panic. -/
theorem decrypt_short_input_panics_witness :
    ([0] : List Nat).length < 28
    ∧ decrypt (fun _ _ => []) (fun _ _ _ => none) [0] "secret"
        = Outcome.panics
    ∧ decryptKeyFromBytes (fun _ _ => []) (fun _ _ _ => none)
        (fun _ => none) [0] "secret" = Outcome.panics := by
  have h := (decrypt_short_input_panics (fun _ _ => [])
    (fun _ _ _ => none) [0] "secret").1 (by norm_num)
  exact ⟨by norm_num, h.1, h.2 (fun _ => none)⟩

end SyncGuard

namespace SyncGuard

/-! ## Health checker (`internal/health`, `health.go`) -/

/-- `NodeHealth`: the cached result of one `PerformHealthCheck`. -/
structure NodeHealth where
  healthy : Bool
  isSyncing : Bool
  latestHeight : Int
  peerCount : Int
  deriving DecidableEq, Repr

/-- The checker fields read by `IsHealthy` and `GetLastHeight`: the
configured `health.min_peers` (a Go `int`) and the cached last health,
`none` before the first completed check. -/
structure Checker where
  minPeers : Int
  lastHealth : Option NodeHealth
  deriving DecidableEq, Repr

/-- `Checker.IsHealthy`. -/
def isHealthy (c : Checker) : Bool :=
  match c.lastHealth with
  | none => false
  | some lh =>
      let minPeers := c.minPeers
      let minPeers := if minPeers = 0 then 1 else minPeers
      lh.healthy && !lh.isSyncing && decide (lh.peerCount ≥ minPeers)

/-- `Checker.GetLastHeight`. -/
def getLastHeight (c : Checker) : Int :=
  match c.lastHealth with
  | none => 0
  | some lh => lh.latestHeight

/-- C10 counterexample: with a (nonsensical but representable) configured
`min_peers = -1`, a node with zero connected peers IS reported healthy — the
claim's "never reported healthy" does not hold for negative `min_peers`. -/
theorem isHealthy_zero_peers_negative_min_peers :
    isHealthy ⟨-1, some ⟨true, false, 100, 0⟩⟩ = true := by decide

/-- C10 (amended): before the first health check completes (`lastHealth` is
nil) `IsHealthy()` is false and `GetLastHeight()` is 0; `IsHealthy` treats a
configured `min_peers` of 0 as 1; hence for every non-negative configured
`min_peers`, a node with zero connected peers is never reported healthy. -/
theorem isHealthy_unprimed_and_min_peers :
    (∀ c : Checker, c.lastHealth = none →
      isHealthy c = false ∧ getLastHeight c = 0)
    ∧ (∀ lh : NodeHealth, isHealthy ⟨0, some lh⟩ = isHealthy ⟨1, some lh⟩)
    ∧ (∀ (mp : Int) (lh : NodeHealth), 0 ≤ mp → lh.peerCount = 0 →
        isHealthy ⟨mp, some lh⟩ = false) := by
  refine ⟨?_, ?_, ?_⟩
  · intro c hnone
    obtain ⟨mp, lh⟩ := c
    simp only at hnone
    subst hnone
    exact ⟨rfl, rfl⟩
  · intro lh
    simp [isHealthy]
  · intro mp lh hmp hpc
    obtain ⟨h, s, ht, pc⟩ := lh
    simp only at hpc
    subst hpc
    simp only [isHealthy]
    by_cases hz : mp = 0
    · subst hz
      simp
    · rw [if_neg hz]
      have : ¬ ((0:Int) ≥ mp) := by omega
      simp [this]

/-- Witness for `isHealthy_unprimed_and_min_peers`: a freshly built checker
reports unhealthy with height 0, and a healthy, synced report with zero peers
under the default `min_peers = 1` is still unhealthy. -/
theorem isHealthy_unprimed_and_min_peers_witness :
    isHealthy ⟨1, none⟩ = false ∧ getLastHeight ⟨1, none⟩ = 0
    ∧ isHealthy ⟨1, some ⟨true, false, 500, 0⟩⟩ = false := by
  have h1 := isHealthy_unprimed_and_min_peers.1 ⟨1, none⟩ rfl
  have h2 := isHealthy_unprimed_and_min_peers.2.2 1 ⟨true, false, 500, 0⟩
    (by norm_num) rfl
  exact ⟨h1.1, h1.2, h2⟩

end SyncGuard
